import Mathlib

/-!
Shallow embedding of the geometric post-processing and document assembly
core of the Document-Text-Recognition repository.

Coordinates and scores are represented by rational numbers (`ℚ`): the
Python code works over IEEE floats, but every operation the claims touch
(comparisons, medians, means, sorting keys) is exact field arithmetic, so
`ℚ` is a faithful model away from the degenerate division-by-zero cases,
which are modelled explicitly (`Option` for NaN outcomes).

Python exceptions are modelled with `Except`: `ValueError` raised on a
box/string count mismatch becomes `BuildError.shapeMismatch` (the spec's
"ShapeMismatchError"), and `NotImplementedError` raised for block
resolution becomes `BuildError.notImplemented` (the spec's
"UnsupportedFeatureError").
-/

namespace DocTr

/-- A detected word box as stored in one row of the `(N, 5)` numpy array
handed to `DocumentBuilder`: columns `0..4` are
`xmin, ymin, xmax, ymax, score` (src/doctr/models/core.py). -/
structure BBox where
  xmin : ℚ
  ymin : ℚ
  xmax : ℚ
  ymax : ℚ
  score : ℚ
deriving Repr, DecidableEq, Inhabited

/-- Sorting a list ascending by a rational-valued key.  numpy's `argsort`
(an unstable quicksort) is modelled as an insertion sort by the key: both
produce a permutation of the input that is monotone in the key, which is
all the embedded algorithms depend on. -/
def sortByKey {α : Type} (key : α → ℚ) (l : List α) : List α :=
  @List.insertionSort α (fun a b => key a ≤ key b)
    (fun a b => inferInstanceAs (Decidable (key a ≤ key b))) l

/-- `np.median` on a 1-D array: sort ascending; odd length takes the middle
element, even length averages the two middle elements.  (numpy's median of
an empty array is NaN; every call site in the embedded code is guarded by a
non-empty input, and we return `0` there.) -/
def median (l : List ℚ) : ℚ :=
  let s := sortByKey id l
  if l.length % 2 = 1 then s.getD (l.length / 2) 0
  else (s.getD (l.length / 2 - 1) 0 + s.getD (l.length / 2) 0) / 2

/-- Modelled from the spec (§3 data model): `Word` from
`doctr/documents/elements.py`, which is not under `src/`; only the fields
the builder constructs are modelled (value, confidence, two-corner
geometry). -/
structure Word where
  value : String
  confidence : ℚ
  geometry : (ℚ × ℚ) × (ℚ × ℚ)
deriving Repr, DecidableEq

/-- Modelled from the spec (§3): a `Line` is an ordered sequence of Words. -/
structure Line where
  words : List Word
deriving Repr, DecidableEq

/-- Modelled from the spec (§3): a `Block` is an ordered sequence of Lines. -/
structure Block where
  lines : List Line
deriving Repr, DecidableEq

/-- Modelled from the spec (§3): the fields of `Page` that
`DocumentBuilder.__call__` supplies (blocks, page index, (H, W) shape). -/
structure Page where
  blocks : List Block
  pageIdx : ℕ
  dimensions : ℕ × ℕ
deriving Repr, DecidableEq

/-- Modelled from the spec (§3): a `Document` wraps the ordered page list. -/
structure Document where
  pages : List Page
deriving Repr, DecidableEq

/-- Python exceptions escaping `DocumentBuilder`. -/
inductive BuildError where
  /-- `ValueError` from `_build_blocks` when the box count and the string
  count for a page differ (the spec's `ShapeMismatchError`). -/
  | shapeMismatch (nBoxes nSeqs : ℕ)
  /-- `NotImplementedError` from `__init__` when `resolve_blocks` is set
  (the spec's `UnsupportedFeatureError`). -/
  | notImplemented
  /-- `IndexError` from `__call__` when `page_shapes[page_idx]` is read
  past the end of the shape list. -/
  | indexError
deriving Repr, DecidableEq

/-- The configuration state a successfully constructed `DocumentBuilder`
carries (src/doctr/models/core.py, `__init__`). -/
structure Builder where
  resolveLinesFlag : Bool
  paragraphBreak : ℚ
deriving Repr, DecidableEq

/-- `DocumentBuilder.__init__(resolve_lines, resolve_blocks, paragraph_break)`:
stores `resolve_lines`, raises `NotImplementedError` if `resolve_blocks`,
then stores `paragraph_break`. -/
def mkBuilder (resolveLinesArg resolveBlocksArg : Bool) (paragraphBreakArg : ℚ) :
    Except BuildError Builder :=
  if resolveBlocksArg then .error .notImplemented
  else .ok ⟨resolveLinesArg, paragraphBreakArg⟩

/-- The sorting key of `DocumentBuilder._sort_boxes` and
`DocumentBuilder._resolve_lines`:
`boxes[:, 0] + 2 * boxes[:, 3] / np.median(boxes[:, 3] - boxes[:, 1])`,
i.e. `xmin + 2 * ymax / y_med` where `y_med` is the median box height.
Note the numerator is the bottom coordinate `ymax` (column 3), not the
box height. -/
def sortKey (get : ℕ → BBox) (yMed : ℚ) (i : ℕ) : ℚ :=
  (get i).xmin + 2 * (get i).ymax / yMed

/-- Median of the box heights `boxes[:, 3] - boxes[:, 1]` over a page of
`n` boxes. -/
def medianHeight (get : ℕ → BBox) (n : ℕ) : ℚ :=
  median ((List.range n).map fun i => (get i).ymax - (get i).ymin)

/-- `DocumentBuilder._sort_boxes(boxes)`:
`(boxes[:, 0] + 2 * boxes[:, 3] / np.median(boxes[:, 3] - boxes[:, 1])).argsort()`.
`argsort` is modelled as a merge sort of the index range by the key. -/
def sortBoxes (get : ℕ → BBox) (n : ℕ) : List ℕ :=
  sortByKey (sortKey get (medianHeight get n)) (List.range n)

/-- The loop of `DocumentBuilder._resolve_sub_lines` after the horizontal
sort: `cur` is the current `sub_line` in reverse (its head is
`sub_line[-1]`), `rest` the remaining sorted word indices.  A new sub-line
starts whenever `boxes[i, 0] - prev_box[2] >= paragraph_break`. -/
def subLinesLoop (get : ℕ → BBox) (pBreak : ℚ) : List ℕ → List ℕ → List (List ℕ)
  | cur, [] => [cur.reverse]
  | cur, i :: rest =>
    if (get i).xmin - (get (cur.headD 0)).xmax < pBreak then
      subLinesLoop get pBreak (i :: cur) rest
    else
      cur.reverse :: subLinesLoop get pBreak [i] rest

/-- `DocumentBuilder._resolve_sub_lines(boxes, words)`: sort the word
indices by `xmin`, then split at horizontal gaps of at least
`paragraph_break`; a line of fewer than two words is returned whole. -/
def resolveSubLines (get : ℕ → BBox) (pBreak : ℚ) (words : List ℕ) : List (List ℕ) :=
  let sorted := sortByKey (fun i => (get i).xmin) words
  match sorted with
  | [] => [[]]
  | [w] => [[w]]
  | w :: rest => subLinesLoop get pBreak [w] rest

/-- The y-center `boxes[idx][[1, 3]].mean()` of a box. -/
def yCenter (get : ℕ → BBox) (i : ℕ) : ℚ :=
  ((get i).ymin + (get i).ymax) / 2

/-- The loop of `DocumentBuilder._resolve_lines`: `words` is the current
line (in order), `cSum` the running `y_center_sum`.  A vertical break
happens when the candidate's y-center strays from the line's mean y-center
by at least `y_med / 2`; a closed line is split into sub-lines. -/
def linesLoop (get : ℕ → BBox) (pBreak yMed : ℚ) :
    List ℕ → ℚ → List ℕ → List (List ℕ)
  | words, _, [] =>
    if 0 < words.length then resolveSubLines get pBreak words else []
  | words, cSum, idx :: rest =>
    if |yCenter get idx - cSum / (words.length : ℚ)| < yMed / 2 then
      linesLoop get pBreak yMed (words ++ [idx]) (cSum + yCenter get idx) rest
    else
      resolveSubLines get pBreak words ++
        linesLoop get pBreak yMed [idx] (yCenter get idx) rest

/-- `DocumentBuilder._resolve_lines(boxes)`: sort the indices by the
reading-order key, then cluster vertically and split horizontally.
(With `n = 0` the Python would fault on `idxs[0]`; `_build_blocks` never
reaches it then, and the model returns `[]`.) -/
def resolveLines (get : ℕ → BBox) (n : ℕ) (pBreak : ℚ) : List (List ℕ) :=
  match sortByKey (sortKey get (medianHeight get n)) (List.range n) with
  | [] => []
  | i0 :: rest =>
    linesLoop get pBreak (medianHeight get n) [i0] (yCenter get i0) rest

/-- The `Word` constructed by `_build_blocks` for box index `idx`:
`Word(char_sequences[idx], boxes[idx, 4], ((xmin, ymin), (xmax, ymax)))`. -/
def mkWord (get : ℕ → BBox) (seqs : List String) (idx : ℕ) : Word :=
  ⟨seqs.getD idx "", (get idx).score,
    (((get idx).xmin, (get idx).ymin), ((get idx).xmax, (get idx).ymax))⟩

/-- `DocumentBuilder._build_blocks(boxes, char_sequences)`: raise on a
count mismatch, return no blocks for an empty page, otherwise group the
indices into lines (one sorted line when `resolve_lines` is off) and wrap
all lines into a single block. -/
def buildBlocks (b : Builder) (boxes : List BBox) (seqs : List String) :
    Except BuildError (List Block) :=
  if boxes.length ≠ seqs.length then
    .error (.shapeMismatch boxes.length seqs.length)
  else if boxes.length = 0 then .ok []
  else
    .ok [⟨(if b.resolveLinesFlag then
            resolveLines (fun i => boxes.getD i default) boxes.length b.paragraphBreak
          else [sortBoxes (fun i => boxes.getD i default) boxes.length]).map
        fun line => ⟨line.map (mkWord (fun i => boxes.getD i default) seqs)⟩⟩]

/-- The page loop of `DocumentBuilder.__call__`: for each page, build its
blocks from the slice `char_sequences[crop_idx : crop_idx + N]`, look up
`page_shapes[page_idx]`, then advance `crop_idx` by the page's box count
and `page_idx` by one; a raised exception aborts the whole call.  Python
evaluates the arguments of `Page(...)` left to right, so `_build_blocks`
(which can raise the count-mismatch `ValueError`) runs before the
`page_shapes[page_idx]` subscript, which raises `IndexError` when the
shape list is shorter than the page list. -/
def buildPages (b : Builder) (shapes : List (ℕ × ℕ)) (seqs : List String) :
    ℕ → ℕ → List (List BBox) → Except BuildError (List Page)
  | _, _, [] => .ok []
  | pageIdx, cropIdx, pageBoxes :: rest =>
    match buildBlocks b pageBoxes ((seqs.drop cropIdx).take pageBoxes.length) with
    | .error e => .error e
    | .ok blocks =>
      match shapes[pageIdx]? with
      | none => .error .indexError
      | some shape =>
        match buildPages b shapes seqs (pageIdx + 1) (cropIdx + pageBoxes.length) rest with
        | .error e => .error e
        | .ok pages => .ok (⟨blocks, pageIdx, shape⟩ :: pages)

/-- `DocumentBuilder.__call__(boxes, char_sequences, page_shapes)`. -/
def builderCall (b : Builder) (boxes : List (List BBox)) (seqs : List String)
    (shapes : List (ℕ × ℕ)) : Except BuildError Document :=
  (buildPages b shapes seqs 0 0 boxes).map Document.mk

/-- Total number of Word elements in a list of blocks. -/
def wordCount (blocks : List Block) : ℕ :=
  (blocks.map fun bl => ((bl.lines.map fun ln => ln.words.length).sum)).sum

/-- Total number of boxes across the pages of a call. -/
def totalBoxes (boxes : List (List BBox)) : ℕ :=
  (boxes.map List.length).sum

/-! ### Detection post-processing (src/doctr/models/detection/core.py) -/

/-- All pixel coordinates `(i, j)` of an `h × w` map, row-major. -/
def gridCells (h w : ℕ) : List (ℕ × ℕ) :=
  (List.range h).flatMap fun i => (List.range w).map fun j => (i, j)

/-- The rotated-bbox branch of `DetectionPostProcessor.box_score`:
`product = pred * mask; np.sum(product) / np.count_nonzero(product)`.
The mask written by `cv2.fillPoly` (an external library call) is modelled
as an arbitrary grid of values, and the probability map as a function of
the pixel coordinates.  IEEE floats have no counterpart in `ℚ` for the
`0.0 / 0` NaN that numpy produces (with a warning, not an exception) when
`count_nonzero` is `0`, so that outcome is modelled as `none`. -/
def boxScoreRotated (h w : ℕ) (pred mask : ℕ → ℕ → ℚ) : Option ℚ :=
  if ((gridCells h w).filter fun p => decide (pred p.1 p.2 * mask p.1 p.2 ≠ 0)).length = 0
  then none
  else some (((gridCells h w).map fun p => pred p.1 p.2 * mask p.1 p.2).sum /
    (((gridCells h w).filter fun p => decide (pred p.1 p.2 * mask p.1 p.2 ≠ 0)).length : ℚ))

/-- `np.clip(v, lo, hi)`: values below `lo` go to `lo`, above `hi` to `hi`. -/
def clipInt (v lo hi : ℤ) : ℤ := min (max v lo) hi

/-- `np.min` over a non-empty list given as head and tail (numpy raises on
an empty array). -/
def listMinQ (a : ℚ) (l : List ℚ) : ℚ := l.foldl min a

/-- `np.max` over a non-empty list given as head and tail. -/
def listMaxQ (a : ℚ) (l : List ℚ) : ℚ := l.foldl max a

/-- The axis-aligned branch of `DetectionPostProcessor.box_score`:
clip `floor(min x), ceil(max x)` into `[0, w-1]` and
`floor(min y), ceil(max y)` into `[0, h-1]`, then take
`pred[ymin:ymax+1, xmin:xmax+1].mean()`.  numpy's mean of an empty slice
is NaN (modelled as `none`), and `np.min` of an empty points array raises
(also `none`). -/
def boxScoreAxisAligned (h w : ℕ) (pred : ℕ → ℕ → ℚ) (points : List (ℚ × ℚ)) :
    Option ℚ :=
  match points with
  | [] => none
  | p :: ps =>
    let xmin : ℤ := clipInt ⌊listMinQ p.1 (ps.map Prod.fst)⌋ 0 ((w : ℤ) - 1)
    let xmax : ℤ := clipInt ⌈listMaxQ p.1 (ps.map Prod.fst)⌉ 0 ((w : ℤ) - 1)
    let ymin : ℤ := clipInt ⌊listMinQ p.2 (ps.map Prod.snd)⌋ 0 ((h : ℤ) - 1)
    let ymax : ℤ := clipInt ⌈listMaxQ p.2 (ps.map Prod.snd)⌉ 0 ((h : ℤ) - 1)
    if (ymax + 1 - ymin).toNat * (xmax + 1 - xmin).toNat = 0 then none
    else some ((((List.range (ymax + 1 - ymin).toNat).map fun i =>
        ((List.range (xmax + 1 - xmin).toNat).map fun j =>
          pred (ymin.toNat + i) (xmin.toNat + j)).sum).sum) /
      (((ymax + 1 - ymin).toNat * (xmax + 1 - xmin).toNat : ℕ) : ℚ))

/-- `k_size = 1 + int(proba_map[0].shape[0] / 512)` from
`DetectionPostProcessor.__call__`, where `proba_map[0].shape[0]` is the
map height `H` (Python's `int(H / 512)` truncates the exact float quotient
toward zero, which for `H ≥ 0` is `H / 512` in `ℕ`). -/
def kernelSize (H : ℕ) : ℕ := 1 + H / 512

/-- The shape of the opening kernel `np.ones((k_size, k_size), np.uint8)`. -/
def kernelShape (H : ℕ) : ℕ × ℕ := (kernelSize H, kernelSize H)

/-! ### Geometry helpers (doctr/utils/geometry.py, absent from src/) -/

/-- Modelled from the spec: `doctr.utils.geometry.bbox_to_polygon` is not
under `src/`.  Per spec §4.1 and `src/test/test_utils_geometry.py`, it
returns the 4 corners of the box in the order
`((xmin, ymin), (xmax, ymin), (xmin, ymax), (xmax, ymax))`. -/
def bbox_to_polygon (b : (ℚ × ℚ) × (ℚ × ℚ)) : List (ℚ × ℚ) :=
  [(b.1.1, b.1.2), (b.2.1, b.1.2), (b.1.1, b.2.2), (b.2.1, b.2.2)]

/-- Modelled from the spec: `doctr.utils.geometry.polygon_to_bbox` is not
under `src/`.  Per spec §4.1 it returns `((min-x, min-y), (max-x, max-y))`
over all points of the polygon (a polygon has ≥ 3 points; the empty case
is given a default). -/
def polygon_to_bbox : List (ℚ × ℚ) → (ℚ × ℚ) × (ℚ × ℚ)
  | [] => ((0, 0), (0, 0))
  | p :: ps =>
    ((listMinQ p.1 (ps.map Prod.fst), listMinQ p.2 (ps.map Prod.snd)),
     (listMaxQ p.1 (ps.map Prod.fst), listMaxQ p.2 (ps.map Prod.snd)))

/-! ### The spec's version of the reading-order key, and concrete fixtures -/

/-- The reading-order key as the spec words it: `xmin + 2*h/y_med` with
`h = ymax - ymin` the box HEIGHT.  This is the spec's statement, written
here only to be compared with `sortKey`, which the code uses and which
divides the bottom coordinate `ymax`, not the height. -/
def specHeightKey (get : ℕ → BBox) (yMed : ℚ) (i : ℕ) : ℚ :=
  (get i).xmin + 2 * ((get i).ymax - (get i).ymin) / yMed

/-- Fixture: two boxes on which the code key and the spec's height key
order the indices differently.  Box 0 sits low on the page with a small
height; box 1 sits high with a larger height.  Heights are `1/10` and
`3/10`, so the median height is `1/5`. -/
def cexBoxes : List BBox :=
  [⟨0, 9/10, 1, 1, 9/10⟩, ⟨1/2, 0, 1, 3/10, 9/10⟩]

/-- Index accessor for `cexBoxes`, as `_build_blocks` reads a row. -/
def cexGet : ℕ → BBox := fun i => cexBoxes.getD i default

/-- Fixture: three distinct boxes forming one visual row, used to witness
the counting and error-handling theorems on concrete inputs. -/
def rowBoxes : List BBox :=
  [⟨0, 0, 1/10, 1/10, 9/10⟩, ⟨2/10, 0, 3/10, 1/10, 8/10⟩, ⟨4/10, 0, 5/10, 1/10, 7/10⟩]

end DocTr

deriving instance DecidableEq for Except

section RatKernelEval

/- Batteries marks the `Rat` field operations `@[irreducible]`; restore
their reducibility locally so that `decide` can evaluate the embedded
algorithms on the concrete rational fixtures below.  (This affects only
elaboration-time unfolding; the kernel checks the final proofs as usual.) -/
set_option allowUnsafeReducibility true
attribute [local semireducible] Rat.add Rat.mul Rat.sub Rat.inv Rat.div Rat.ofScientific

namespace DocTr

/-! ### Helper lemmas -/

theorem length_sortByKey {α : Type} (key : α → ℚ) (l : List α) :
    (sortByKey key l).length = l.length :=
  List.length_insertionSort _ _

theorem perm_sortByKey {α : Type} (key : α → ℚ) (l : List α) :
    (sortByKey key l).Perm l :=
  List.perm_insertionSort _ _

theorem pairwise_sortByKey {α : Type} (key : α → ℚ) (l : List α) :
    (sortByKey key l).Pairwise fun a b => key a ≤ key b := by
  letI : IsTotal α fun a b => key a ≤ key b := ⟨fun a b => le_total _ _⟩
  letI : IsTrans α fun a b => key a ≤ key b := ⟨fun _ _ _ => le_trans⟩
  exact List.sorted_insertionSort _ l

/-- Total number of indices across a list of lines. -/
def sumLen (ls : List (List ℕ)) : ℕ := (ls.map List.length).sum

theorem sumLen_append (a c : List (List ℕ)) : sumLen (a ++ c) = sumLen a + sumLen c := by
  simp [sumLen]

theorem sumLen_subLinesLoop (get : ℕ → BBox) (pBreak : ℚ) :
    ∀ (rest cur : List ℕ),
      sumLen (subLinesLoop get pBreak cur rest) = cur.length + rest.length := by
  intro rest
  induction rest with
  | nil => intro cur; simp [subLinesLoop, sumLen]
  | cons i rest ih =>
    intro cur
    by_cases h : (get i).xmin - (get (cur.headD 0)).xmax < pBreak
    · rw [subLinesLoop, if_pos h, ih]; simp; omega
    · rw [subLinesLoop, if_neg h]
      simp only [sumLen, List.map_cons, List.sum_cons] at ih ⊢
      rw [ih]; simp; omega

theorem sumLen_resolveSubLines (get : ℕ → BBox) (pBreak : ℚ) (words : List ℕ) :
    sumLen (resolveSubLines get pBreak words) = words.length := by
  have hlen : (sortByKey (fun i => (get i).xmin) words).length = words.length :=
    length_sortByKey _ _
  unfold resolveSubLines
  rcases h : sortByKey (fun i => (get i).xmin) words with _ | ⟨w, _ | ⟨w2, rest⟩⟩ <;>
    rw [h] at hlen
  · simp [sumLen, ← hlen]
  · simp [sumLen, ← hlen]
  · rw [sumLen_subLinesLoop]
    simp at hlen ⊢
    omega

theorem sumLen_linesLoop (get : ℕ → BBox) (pBreak yMed : ℚ) :
    ∀ (rest words : List ℕ) (cSum : ℚ),
      sumLen (linesLoop get pBreak yMed words cSum rest) = words.length + rest.length := by
  intro rest
  induction rest with
  | nil =>
    intro words cSum
    by_cases h : 0 < words.length
    · rw [linesLoop, if_pos h, sumLen_resolveSubLines]; simp
    · rw [linesLoop, if_neg h]; simp [sumLen]; omega
  | cons idx rest ih =>
    intro words cSum
    by_cases h : |yCenter get idx - cSum / (words.length : ℚ)| < yMed / 2
    · rw [linesLoop, if_pos h, ih]; simp; omega
    · rw [linesLoop, if_neg h, sumLen_append, sumLen_resolveSubLines, ih]
      simp; omega

theorem sumLen_resolveLines (get : ℕ → BBox) (n : ℕ) (pBreak : ℚ) :
    sumLen (resolveLines get n pBreak) = n := by
  have hlen : (sortByKey (sortKey get (medianHeight get n)) (List.range n)).length = n := by
    rw [length_sortByKey, List.length_range]
  unfold resolveLines
  rcases h : sortByKey (sortKey get (medianHeight get n)) (List.range n) with _ | ⟨i0, rest⟩ <;>
    rw [h] at hlen
  · simpa [sumLen] using hlen
  · rw [sumLen_linesLoop]
    simp at hlen ⊢
    omega

theorem wordCount_one_block (lns : List (List ℕ)) (f : ℕ → Word) :
    wordCount [⟨lns.map fun line => ⟨line.map f⟩⟩] = sumLen lns := by
  simp [wordCount, sumLen, List.map_map, Function.comp_def, List.length_map]

/-- `_build_blocks` with matching counts succeeds and the result holds
exactly one `Word` per box. -/
theorem buildBlocks_ok (b : Builder) (boxes : List BBox) (seqs : List String)
    (h : boxes.length = seqs.length) :
    ∃ blocks, buildBlocks b boxes seqs = .ok blocks ∧ wordCount blocks = boxes.length := by
  by_cases hz : boxes.length = 0
  · refine ⟨[], ?_, ?_⟩
    · rw [buildBlocks, if_neg (by omega), if_pos hz]
    · simp [wordCount, hz]
  · have heq : buildBlocks b boxes seqs =
        .ok [⟨(if b.resolveLinesFlag then
                resolveLines (fun i => boxes.getD i default) boxes.length b.paragraphBreak
              else [sortBoxes (fun i => boxes.getD i default) boxes.length]).map
            fun line => ⟨line.map (mkWord (fun i => boxes.getD i default) seqs)⟩⟩] := by
      rw [buildBlocks, if_neg (by omega), if_neg hz]
    refine ⟨_, heq, ?_⟩
    rw [wordCount_one_block]
    by_cases hr : b.resolveLinesFlag
    · rw [if_pos hr, sumLen_resolveLines]
    · rw [if_neg hr]
      simp [sumLen, sortBoxes, length_sortByKey]

theorem buildBlocks_mismatch (b : Builder) (boxes : List BBox) (seqs : List String)
    (h : boxes.length ≠ seqs.length) :
    buildBlocks b boxes seqs = .error (.shapeMismatch boxes.length seqs.length) := by
  rw [buildBlocks, if_pos h]

/-- When the flat string list runs out before the boxes do and the shape
list covers the pages, the page loop raises the count-mismatch error of
the first deficient page (the count check of a page runs before its shape
lookup, and every earlier page's shape lookup succeeds). -/
theorem buildPages_mismatch (b : Builder) (shapes : List (ℕ × ℕ)) (seqs : List String) :
    ∀ (boxes : List (List BBox)) (pageIdx cropIdx : ℕ),
      cropIdx ≤ seqs.length → seqs.length < cropIdx + totalBoxes boxes →
      pageIdx + boxes.length ≤ shapes.length →
      ∃ nBoxes nSeqs, nSeqs < nBoxes ∧
        buildPages b shapes seqs pageIdx cropIdx boxes =
          .error (.shapeMismatch nBoxes nSeqs) := by
  intro boxes
  induction boxes with
  | nil => intro p c h1 h2 h3; simp [totalBoxes] at h2; omega
  | cons pb rest ih =>
    intro p c h1 h2 h3
    by_cases hlt : seqs.length - c < pb.length
    · have hslice : ((seqs.drop c).take pb.length).length = seqs.length - c := by
        simp; omega
      refine ⟨pb.length, seqs.length - c, by omega, ?_⟩
      rw [buildPages, buildBlocks_mismatch b _ _ (by omega), hslice]
    · have hle : c + pb.length ≤ seqs.length := by omega
      have hslice : ((seqs.drop c).take pb.length).length = pb.length := by
        simp; omega
      obtain ⟨blocks, hb, -⟩ := buildBlocks_ok b pb ((seqs.drop c).take pb.length) hslice.symm
      have hp2 : p < shapes.length := by simp at h3; omega
      have hshape : shapes[p]? = some shapes[p] := List.getElem?_eq_getElem hp2
      obtain ⟨nb, ns, hns, hrec⟩ := ih (p + 1) (c + pb.length) hle (by
        simp [totalBoxes] at h2 ⊢
        omega) (by simp at h3 ⊢; omega)
      exact ⟨nb, ns, hns, by rw [buildPages, hb, hshape, hrec]⟩

/-- When the flat string list covers every box and the shape list covers
every page, the page loop succeeds. -/
theorem buildPages_ok (b : Builder) (shapes : List (ℕ × ℕ)) (seqs : List String) :
    ∀ (boxes : List (List BBox)) (pageIdx cropIdx : ℕ),
      cropIdx + totalBoxes boxes ≤ seqs.length →
      pageIdx + boxes.length ≤ shapes.length →
      ∃ pages, buildPages b shapes seqs pageIdx cropIdx boxes = .ok pages := by
  intro boxes
  induction boxes with
  | nil => intro p c _ _; exact ⟨[], rfl⟩
  | cons pb rest ih =>
    intro p c h h3
    simp [totalBoxes] at h
    have hslice : ((seqs.drop c).take pb.length).length = pb.length := by
      simp; omega
    obtain ⟨blocks, hb, -⟩ := buildBlocks_ok b pb ((seqs.drop c).take pb.length) hslice.symm
    have hp2 : p < shapes.length := by simp at h3; omega
    have hshape : shapes[p]? = some shapes[p] := List.getElem?_eq_getElem hp2
    obtain ⟨pages, hrec⟩ :=
      ih (p + 1) (c + pb.length) (by simp [totalBoxes]; omega) (by simp at h3 ⊢; omega)
    exact ⟨_, by rw [buildPages, hb, hshape, hrec]⟩

/-- Strings beyond the total box count are never read: the page loop gives
the same result on the truncated string list. -/
theorem buildPages_take (b : Builder) (shapes : List (ℕ × ℕ)) (seqs : List String) (T : ℕ) :
    ∀ (boxes : List (List BBox)) (pageIdx cropIdx : ℕ),
      cropIdx + totalBoxes boxes ≤ T →
      buildPages b shapes (seqs.take T) pageIdx cropIdx boxes =
        buildPages b shapes seqs pageIdx cropIdx boxes := by
  intro boxes
  induction boxes with
  | nil => intro p c _; rfl
  | cons pb rest ih =>
    intro p c h
    simp [totalBoxes] at h
    have hslice : ((seqs.take T).drop c).take pb.length = (seqs.drop c).take pb.length := by
      rw [List.drop_take, List.take_take, min_eq_left (by omega)]
    rw [buildPages, buildPages, hslice, ih (p + 1) (c + pb.length) (by simp [totalBoxes]; omega)]

/-! ### Claim theorems -/

/-- Claim C1: for every page given to the document builder with `N` boxes
and `N` recognized strings, assembly succeeds and the total number of Word
elements across all Lines of all Blocks of the assembled page equals `N`,
in both modes (`resolve_lines` true and false): line resolution and
sub-line splitting partition the box indices without losing or duplicating
any. -/
theorem assembled_word_count_eq_box_count (b : Builder) (boxes : List BBox)
    (seqs : List String) (h : boxes.length = seqs.length) :
    ∃ blocks, buildBlocks b boxes seqs = .ok blocks ∧ wordCount blocks = boxes.length :=
  buildBlocks_ok b boxes seqs h

/-- Witness for claim C1: three boxes and three strings with line
resolution on assemble into blocks holding exactly three words. -/
theorem assembled_word_count_eq_box_count_witness :
    ∃ blocks, buildBlocks ⟨true, 35/1000⟩ rowBoxes ["a", "b", "c"] = .ok blocks ∧
      wordCount blocks = rowBoxes.length :=
  assembled_word_count_eq_box_count ⟨true, 35/1000⟩ rowBoxes ["a", "b", "c"] (by decide)

/-- Claim C4: in a call whose shape list covers its pages (the documented
interface supplies one `(H, W)` per page), whenever the flat
recognized-string list is too short to cover some page's boxes (so that
page's box count differs from the number of strings available for it),
`DocumentBuilder.__call__` raises the count-mismatch `ValueError` (the
spec's ShapeMismatchError) with the deficient counts, instead of
producing a Document. -/
theorem call_shapeMismatch_of_missing_strings (b : Builder) (boxes : List (List BBox))
    (seqs : List String) (shapes : List (ℕ × ℕ)) (h : seqs.length < totalBoxes boxes)
    (hs : boxes.length ≤ shapes.length) :
    ∃ nBoxes nSeqs, nSeqs < nBoxes ∧
      builderCall b boxes seqs shapes = .error (.shapeMismatch nBoxes nSeqs) := by
  obtain ⟨nb, ns, hns, he⟩ :=
    buildPages_mismatch b shapes seqs boxes 0 0 (Nat.zero_le _) (by omega) (by omega)
  exact ⟨nb, ns, hns, by rw [builderCall, he]; rfl⟩

/-- Witness for claim C4: the spec's own example, a page of 3 boxes with
only 2 recognized strings (and its one page shape), fails with the
count-mismatch error. -/
theorem call_shapeMismatch_of_missing_strings_witness :
    2 < totalBoxes [rowBoxes] ∧ [rowBoxes].length ≤ 1 ∧
      ∃ nBoxes nSeqs, nSeqs < nBoxes ∧
        builderCall ⟨false, 35/1000⟩ [rowBoxes] ["a", "b"] [(100, 100)] =
          .error (.shapeMismatch nBoxes nSeqs) :=
  ⟨by decide, by decide,
    call_shapeMismatch_of_missing_strings ⟨false, 35/1000⟩ [rowBoxes] ["a", "b"]
      [(100, 100)] (by decide) (by decide)⟩

/-- Claim C5: a page with zero boxes (and correspondingly zero strings)
succeeds: `_build_blocks` returns an empty block list, and the assembled
Page for such a page carries empty blocks; no error is raised. -/
theorem empty_page_yields_empty_blocks (b : Builder) (hw : ℕ × ℕ) :
    buildBlocks b [] [] = .ok [] ∧
      builderCall b [[]] [] [hw] = .ok ⟨[⟨[], 0, hw⟩]⟩ :=
  ⟨rfl, rfl⟩

/-- Claim C6: constructing the document builder with `resolve_blocks = true`
always fails at construction time with `NotImplementedError` (the spec's
UnsupportedFeatureError), for every combination of the other configuration
values. -/
theorem resolve_blocks_not_implemented (resolveLinesArg : Bool) (paragraphBreakArg : ℚ) :
    mkBuilder resolveLinesArg true paragraphBreakArg = .error .notImplemented :=
  rfl

/-- Claim C9: in a call whose shape list covers its pages, when the flat
recognized-string list is at least as long as the total box count, the
call succeeds, and the surplus trailing strings are never read: the
result equals the result on the string list truncated to the total box
count. -/
theorem surplus_strings_ignored (b : Builder) (boxes : List (List BBox))
    (seqs : List String) (shapes : List (ℕ × ℕ)) (h : totalBoxes boxes ≤ seqs.length)
    (hs : boxes.length ≤ shapes.length) :
    (∃ d, builderCall b boxes seqs shapes = .ok d) ∧
      builderCall b boxes seqs shapes =
        builderCall b boxes (seqs.take (totalBoxes boxes)) shapes := by
  constructor
  · obtain ⟨pages, hp⟩ := buildPages_ok b shapes seqs boxes 0 0 (by omega) (by omega)
    exact ⟨⟨pages⟩, by rw [builderCall, hp]; rfl⟩
  · rw [builderCall, builderCall,
      buildPages_take b shapes seqs (totalBoxes boxes) boxes 0 0 (by omega)]

/-- Witness for claim C9: one page of 3 boxes with 5 strings (and its one
page shape) succeeds, and equals the call on the first 3 strings. -/
theorem surplus_strings_ignored_witness :
    (∃ d, builderCall ⟨false, 35/1000⟩ [rowBoxes] ["a", "b", "c", "d", "e"] [(100, 100)] =
        .ok d) ∧
      builderCall ⟨false, 35/1000⟩ [rowBoxes] ["a", "b", "c", "d", "e"] [(100, 100)] =
        builderCall ⟨false, 35/1000⟩ [rowBoxes]
          (["a", "b", "c", "d", "e"].take (totalBoxes [rowBoxes])) [(100, 100)] :=
  surplus_strings_ignored ⟨false, 35/1000⟩ [rowBoxes] ["a", "b", "c", "d", "e"]
    [(100, 100)] (by decide) (by decide)

/-- Claim C3 counterexample: the reading-order sort does NOT order the
indices ascending by the spec's key `xmin + 2*h/y_med` with `h` the box
height.  On `cexBoxes` (heights `1/10` and `3/10`, median `1/5`) the code
emits `[1, 0]`, whose height-key values `7/2, 1` are descending. -/
theorem sortBoxes_not_ordered_by_height_key :
    ¬ ((sortBoxes cexGet 2).Pairwise fun i j =>
        specHeightKey cexGet (medianHeight cexGet 2) i ≤
          specHeightKey cexGet (medianHeight cexGet 2) j) := by
  decide

/-- Claim C3 amended: the reading-order sort orders the box indices
ascending by the key `xmin + 2*ymax/y_med`, where `ymax` is the box's
BOTTOM coordinate (column 3 of the box array), not its height, and `y_med`
is the median box height on the page; the output is a permutation of the
index range.  The hypothesis `0 < y_med` excludes the degenerate
all-zero-height page, where the float division of the source produces
infinities and the exact rational model would diverge from it. -/
theorem sortBoxes_ordered_by_ymax_key (get : ℕ → BBox) (n : ℕ)
    (_hmed : 0 < medianHeight get n) :
    ((sortBoxes get n).Pairwise fun i j =>
        sortKey get (medianHeight get n) i ≤ sortKey get (medianHeight get n) j) ∧
      (sortBoxes get n).Perm (List.range n) :=
  ⟨pairwise_sortByKey _ _, perm_sortByKey _ _⟩

/-- Witness for the amended claim C3 at the two-box fixture. -/
theorem sortBoxes_ordered_by_ymax_key_witness :
    0 < medianHeight cexGet 2 ∧
      (((sortBoxes cexGet 2).Pairwise fun i j =>
          sortKey cexGet (medianHeight cexGet 2) i ≤
            sortKey cexGet (medianHeight cexGet 2) j) ∧
        (sortBoxes cexGet 2).Perm (List.range 2)) :=
  ⟨by decide, sortBoxes_ordered_by_ymax_key cexGet 2 (by decide)⟩

/-- Claim C7 counterexample: the opening-kernel side length is not always
odd: at map height `H = 512` the side is `1 + 512/512 = 2`. -/
theorem kernelSize_even_at_H512 : kernelSize 512 = 2 ∧ ¬ Odd (kernelSize 512) := by
  decide

/-- Claim C7 amended: the opening kernel is square with side length
exactly `1 + H/512` (integer division), but that side is odd exactly when
`H/512` is even — in particular it is even for `512 ≤ H < 1024`. -/
theorem kernelShape_square_side_formula (H : ℕ) :
    kernelShape H = (1 + H / 512, 1 + H / 512) ∧
      (Odd (kernelSize H) ↔ Even (H / 512)) := by
  refine ⟨rfl, ?_⟩
  rw [kernelSize, Nat.odd_iff, Nat.even_iff]
  omega

/-- Claim C2 (code bug): on a probability map whose masked region is
entirely zero, the rotated branch of `box_score` computes
`np.sum(product) / np.count_nonzero(product) = 0.0 / 0`, which in numpy is
NaN (modelled as `none`), not the defined score `0` the spec promises;
since `NaN < box_thresh` is false, such a candidate is not excluded
either.  Evaluated here at a 1×1 zero map fully covered by the mask. -/
theorem boxScoreRotated_allZero_is_nan :
    boxScoreRotated 1 1 (fun _ _ => 0) (fun _ _ => 1) = none ∧
      ∀ q : ℚ, boxScoreRotated 1 1 (fun _ _ => 0) (fun _ _ => 1) ≠ some q := by
  refine ⟨by decide, ?_⟩
  intro q
  rw [show boxScoreRotated 1 1 (fun _ _ => 0) (fun _ _ => 1) = none from by decide]
  exact fun hcon => Option.noConfusion hcon

theorem foldl_min_le_init (a : ℚ) (l : List ℚ) : l.foldl min a ≤ a := by
  induction l generalizing a with
  | nil => exact le_refl a
  | cons b l ih => exact le_trans (ih (min a b)) (min_le_left a b)

theorem init_le_foldl_max (a : ℚ) (l : List ℚ) : a ≤ l.foldl max a := by
  induction l generalizing a with
  | nil => exact le_refl a
  | cons b l ih => exact le_trans (le_max_left a b) (ih (max a b))

theorem listMinQ_le_listMaxQ (a : ℚ) (l : List ℚ) : listMinQ a l ≤ listMaxQ a l :=
  le_trans (foldl_min_le_init a l) (init_le_foldl_max a l)

theorem clipInt_mono {x y lo hi : ℤ} (h : x ≤ y) :
    clipInt x lo hi ≤ clipInt y lo hi :=
  min_le_min (max_le_max h le_rfl) le_rfl

theorem le_clipInt {v lo hi : ℤ} (h : lo ≤ hi) : lo ≤ clipInt v lo hi :=
  le_min (le_max_right v lo) h

/-- Claim C10: on a non-empty probability map, the axis-aligned branch of
`box_score` clips the polygon's floor/ceil extents into the map bounds, so
the rectangular slice it averages is never empty and the score is a
defined value — even when the polygon lies entirely outside the map. -/
theorem boxScoreAxisAligned_defined (h w : ℕ) (pred : ℕ → ℕ → ℚ)
    (points : List (ℚ × ℚ)) (hh : 0 < h) (hw : 0 < w) (hp : points ≠ []) :
    ∃ q, boxScoreAxisAligned h w pred points = some q := by
  obtain ⟨p, ps, rfl⟩ : ∃ p ps, points = p :: ps := by
    cases points with
    | nil => exact absurd rfl hp
    | cons p ps => exact ⟨p, ps, rfl⟩
  have hw1 : (0 : ℤ) ≤ (w : ℤ) - 1 := by omega
  have hh1 : (0 : ℤ) ≤ (h : ℤ) - 1 := by omega
  have hxle : clipInt ⌊listMinQ p.1 (ps.map Prod.fst)⌋ 0 ((w : ℤ) - 1) ≤
      clipInt ⌈listMaxQ p.1 (ps.map Prod.fst)⌉ 0 ((w : ℤ) - 1) :=
    clipInt_mono (le_trans (Int.floor_le_floor (listMinQ_le_listMaxQ _ _))
      (Int.floor_le_ceil _))
  have hyle : clipInt ⌊listMinQ p.2 (ps.map Prod.snd)⌋ 0 ((h : ℤ) - 1) ≤
      clipInt ⌈listMaxQ p.2 (ps.map Prod.snd)⌉ 0 ((h : ℤ) - 1) :=
    clipInt_mono (le_trans (Int.floor_le_floor (listMinQ_le_listMaxQ _ _))
      (Int.floor_le_ceil _))
  have hx0 : (0 : ℤ) ≤ clipInt ⌊listMinQ p.1 (ps.map Prod.fst)⌋ 0 ((w : ℤ) - 1) :=
    le_clipInt hw1
  have hy0 : (0 : ℤ) ≤ clipInt ⌊listMinQ p.2 (ps.map Prod.snd)⌋ 0 ((h : ℤ) - 1) :=
    le_clipInt hh1
  simp only [boxScoreAxisAligned]
  rw [if_neg (by apply Nat.mul_ne_zero <;> omega)]
  exact ⟨_, rfl⟩

/-- Witness for claim C10: a 1×1 map and a single point far outside it
still produce a defined score. -/
theorem boxScoreAxisAligned_defined_witness :
    0 < 1 ∧ ([((7 : ℚ), (9 : ℚ))] : List (ℚ × ℚ)) ≠ [] ∧
      ∃ q, boxScoreAxisAligned 1 1 (fun _ _ => 1/2) [((7 : ℚ), (9 : ℚ))] = some q :=
  ⟨by decide, by decide,
    boxScoreAxisAligned_defined 1 1 (fun _ _ => 1/2) [((7 : ℚ), (9 : ℚ))]
      (by decide) (by decide) (by decide)⟩

/-- Claim C8 (spec-modelled: `doctr/utils/geometry.py` is not under
`src/`): for every axis-aligned box with `xmin ≤ xmax` and `ymin ≤ ymax`,
`polygon_to_bbox (bbox_to_polygon box) = box`. -/
theorem polygon_bbox_roundtrip (x0 y0 x1 y1 : ℚ) (hx : x0 ≤ x1) (hy : y0 ≤ y1) :
    polygon_to_bbox (bbox_to_polygon ((x0, y0), (x1, y1))) = ((x0, y0), (x1, y1)) := by
  simp only [bbox_to_polygon, polygon_to_bbox, listMinQ, listMaxQ, List.map_cons,
    List.map_nil, List.foldl_cons, List.foldl_nil]
  simp [hx, hy, min_eq_left, min_eq_right, max_eq_left, max_eq_right]

/-- Witness for claim C8 at the unit box of `test_bbox_to_polygon`. -/
theorem polygon_bbox_roundtrip_witness :
    (0 : ℚ) ≤ 1 ∧
      polygon_to_bbox (bbox_to_polygon ((0, 0), (1, 1))) = ((0, 0), (1, 1)) :=
  ⟨by decide, polygon_bbox_roundtrip 0 0 1 1 (by decide) (by decide)⟩

end DocTr

end RatKernelEval
